import Mathlib

/-!
Verification of the NVDLA task submission and completion engine
(`drivers/video/tegra/host/nvdla/nvdla_queue.c`).
The file shallowly embeds the data model and operations of that source file:
action-list encoding (`add_opcode`, `add_fence_action`, `add_status_action`,
`nvdla_fill_preactions`, `nvdla_fill_postactions`), memory-handle resolution
(`nvdla_map_task_memory`), the task descriptor build (`nvdla_fill_task_desc`),
task lifecycle (`nvdla_task_get` / `nvdla_task_put` / `task_free` /
`nvdla_task_free_locked`), and the queue protocol (`nvdla_queue_submit`,
`nvdla_queue_update`, `nvdla_queue_abort`).
External collaborators (the nvhost syncpoint subsystem, the buffer-pinning
subsystem, engine command dispatch) and the numeric constants of
`dla_os_interface.h` / `nvdla.h` are not part of the given sources; where
their behaviour matters they are modelled from the specification and each such
definition is marked `Modelled from the spec:`.
-/

namespace NvdlaQueue

/-- Modelled from the spec: action opcodes. `dla_os_interface.h` is not under
the sources, so the opcode byte values used by `nvdla_queue.c`
(`PREACTION_SEM_GE`, `PREACTION_TASK_STATUS`, `PREACTION_TERMINATE`,
`POSTACTION_SEM`, `POSTACTION_TS_SEM`, `POSTACTION_TASK_STATUS`,
`POSTACTION_TERMINATE`) are abstracted into distinct constructors. -/
inductive Op where
  | preSemGE
  | preTaskStatus
  | preTerminate
  | postSem
  | postTsSem
  | postTaskStatus
  | postTerminate
deriving DecidableEq, Repr

/-- Modelled from the spec: byte size of `struct dla_action_opcode`
(an opcode byte). -/
def opcodeBytes : Nat := 1

/-- Modelled from the spec: byte size of `struct dla_action_semaphore`
(64-bit device address + 32-bit value). -/
def semActionBytes : Nat := 12

/-- Modelled from the spec: byte size of `struct dla_action_task_status`
(64-bit device address + 16-bit status code). -/
def statusActionBytes : Nat := 10

/-- One encoded action record, as written by `add_opcode` /
`add_fence_action` / `add_status_action`. -/
inductive Action where
  | op (o : Op)
  | sem (o : Op) (addr : Nat) (val : Nat)
  | taskStatus (o : Op) (addr : Nat) (st : Nat)
deriving DecidableEq, Repr

/-- Bytes occupied by one record: `add_fence_action` and `add_status_action`
first write the opcode and then the payload struct. -/
def Action.bytes : Action → Nat
  | .op _ => opcodeBytes
  | .sem _ _ _ => opcodeBytes + semActionBytes
  | .taskStatus _ _ _ => opcodeBytes + statusActionBytes

/-- Total encoded byte length of an action list (the `next - start` value the
source records in the list header's `size` field). -/
def actionListBytes (l : List Action) : Nat := (l.map Action.bytes).sum

/-- Fence kinds compared against in the `switch` statements
(`NVDLA_FENCE_TYPE_SYNC_FD`, `_SYNCPT`, `_SEMAPHORE`, `_TS_SEMAPHORE`);
`unrecognized` is any other raw value, which hits the `default` branch. -/
inductive FenceType where
  | syncFd
  | syncpt
  | semaphore
  | tsSemaphore
  | unrecognized (raw : Nat)
deriving DecidableEq, Repr

/-- The fields of `struct nvdla_fence` read by `nvdla_queue.c`. -/
structure NvdlaFence where
  type : FenceType
  syncpoint_index : Nat := 0
  syncpoint_value : Nat := 0
  sync_fd : Nat := 0
  sem_handle : Nat := 0
  sem_offset : Nat := 0
  sem_val : Nat := 0
deriving DecidableEq, Repr

/-- One input/output task-status entry (`handle`, `offset`, `status`). -/
structure NvdlaStatusEntry where
  handle : Nat := 0
  offset : Nat := 0
  status : Nat := 0
deriving DecidableEq, Repr

/-- One `struct nvdla_mem_handle` (`handle`, `offset`). -/
structure NvdlaMemHandle where
  handle : Nat := 0
  offset : Nat := 0
deriving DecidableEq, Repr

/-- A task as built by the caller: fence lists, status lists, and the
optional indirect address list.  `addresses` is the content of the
address-list buffer (`num_addresses` entries read from device-accessible
memory); the source field `num_addresses` is `addresses.length`. -/
structure NvdlaTask where
  prefences : List NvdlaFence := []
  postfences : List NvdlaFence := []
  in_task_status : List NvdlaStatusEntry := []
  out_task_status : List NvdlaStatusEntry := []
  address_list : NvdlaMemHandle := {}
  addresses : List NvdlaMemHandle := []

/-- Modelled from the spec: the external collaborators of the engine.
`pin h` is the buffer-pinning subsystem (`nvhost_buffer_submit_pin` of a
single handle): `some addr` on success, `none` on failure. `syncptAddr` is
`nvhost_syncpt_address`. `validHwPt` is `nvhost_syncpt_is_valid_hw_pt`.
`fdget fd` is `nvhost_sync_fdget` plus the per-point reads
(`nvhost_sync_pt_id`, `nvhost_sync_pt_thresh`): the list of
(syncpoint id, threshold) pairs of the sync file, or `none` when the fd
lookup fails.  `queueSyncptId` is `queue->syncpt_id`. `pinBatchErr` is the
error code a failed batched pin returns. `allocErr` models
`nvhost_queue_alloc_task_memory` failure. -/
structure Env where
  pin : Nat → Option Nat
  syncptAddr : Nat → Nat
  validHwPt : Nat → Bool
  fdget : Nat → Option (List (Nat × Nat))
  queueSyncptId : Nat := 0
  pinBatchErr : Int := -14
  allocErr : Option Int := none

/-- Linux error code `EINVAL` (returned negated). -/
def EINVAL : Int := 22

/-- The inner loop of the `NVDLA_FENCE_TYPE_SYNC_FD` case: one semaphore-wait
action per (id, thresh) pair of the sync file; a zero or invalid syncpoint id
stops the inner loop (the source `break`s out after `sync_fence_put`). -/
def syncFdActions (env : Env) : List (Nat × Nat) → List Action
  | [] => []
  | p :: rest =>
    if p.1 = 0 ∨ env.validHwPt p.1 = false then []
    else .sem .preSemGE (env.syncptAddr p.1) p.2 :: syncFdActions env rest

/-- One iteration of the pre-fence `switch` in `nvdla_fill_preactions`:
returns the actions emitted and the handles pinned for this entry, or
`-EINVAL` for an unrecognized fence type.  A failed sync-fd lookup or a
failed semaphore pin `break`s out of the `switch` only, emitting nothing
(the enclosing `for` loop continues). -/
def preFenceActions (env : Env) (f : NvdlaFence) :
    Except Int (List Action × List Nat) :=
  match f.type with
  | .syncFd =>
    match env.fdget f.sync_fd with
    | none => .ok ([], [])
    | some pts => .ok (syncFdActions env pts, [])
  | .syncpt =>
    .ok ([.sem .preSemGE (env.syncptAddr f.syncpoint_index) f.syncpoint_value],
      [])
  | .semaphore =>
    match env.pin f.sem_handle with
    | none => .ok ([], [])
    | some addr =>
      .ok ([.sem .preSemGE (addr + f.sem_offset) f.sem_val], [f.sem_handle])
  | _ => .error (-EINVAL)

/-- The pre-fence `for` loop of `nvdla_fill_preactions`: the first
unrecognized fence type aborts with `-EINVAL`; otherwise actions and pinned
handles accumulate in entry order. -/
def fillPreFences (env : Env) : List NvdlaFence →
    Except Int (List Action × List Nat)
  | [] => .ok ([], [])
  | f :: rest =>
    match preFenceActions env f with
    | .error e => .error e
    | .ok (a, p) =>
      match fillPreFences env rest with
      | .error e => .error e
      | .ok (as, ps) => .ok (a ++ as, p ++ ps)

/-- The task-status `for` loops of `nvdla_fill_preactions` /
`nvdla_fill_postactions`: a pin failure executes `break` directly inside the
`for` loop, so it stops the whole loop — the failed entry and every remaining
entry are skipped. -/
def fillStatusActions (env : Env) (o : Op) :
    List NvdlaStatusEntry → (List Action × List Nat)
  | [] => ([], [])
  | e :: rest =>
    match env.pin e.handle with
    | none => ([], [])
    | some addr =>
      let p := fillStatusActions env o rest
      (.taskStatus o (addr + e.offset) e.status :: p.1, e.handle :: p.2)

/-- Follows the claim's words (C9), not the source: on a pin failure the
single failed entry's action is skipped and the loop continues with the
remaining entries.  Compared against `fillStatusActions` (the source
behaviour) to settle C9. -/
def fillStatusActionsSkipContinue (env : Env) (o : Op) :
    List NvdlaStatusEntry → (List Action × List Nat)
  | [] => ([], [])
  | e :: rest =>
    match env.pin e.handle with
    | none => fillStatusActionsSkipContinue env o rest
    | some addr =>
      let p := fillStatusActionsSkipContinue env o rest
      (.taskStatus o (addr + e.offset) e.status :: p.1, e.handle :: p.2)

/-- `nvdla_fill_preactions`: pre-fence waits, then input-status waits, then
the terminate opcode; on success the list header records the byte length.
Returns the encoded list and the handles pinned while filling. -/
def nvdla_fill_preactions (env : Env) (t : NvdlaTask) :
    Except Int (List Action × List Nat) :=
  match fillPreFences env t.prefences with
  | .error e => .error e
  | .ok (fa, fp) =>
    let s := fillStatusActions env .preTaskStatus t.in_task_status
    .ok (fa ++ s.1 ++ [.op .preTerminate], fp ++ s.2)

/-- One iteration of the post-fence `switch` in `nvdla_fill_postactions`.
A `NVDLA_FENCE_TYPE_SYNCPT` post-fence emits a semaphore-signal on the
queue's own syncpoint address with value 0; semaphore and
timestamp-semaphore kinds pin their handle (a pin failure emits nothing and
the loop continues); any other kind — including sync-fd — is `-EINVAL`. -/
def postFenceActions (env : Env) (f : NvdlaFence) :
    Except Int (List Action × List Nat) :=
  match f.type with
  | .syncpt =>
    .ok ([.sem .postSem (env.syncptAddr env.queueSyncptId) 0], [])
  | .tsSemaphore =>
    match env.pin f.sem_handle with
    | none => .ok ([], [])
    | some addr =>
      .ok ([.sem .postTsSem (addr + f.sem_offset) f.sem_val], [f.sem_handle])
  | .semaphore =>
    match env.pin f.sem_handle with
    | none => .ok ([], [])
    | some addr =>
      .ok ([.sem .postSem (addr + f.sem_offset) f.sem_val], [f.sem_handle])
  | _ => .error (-EINVAL)

/-- The post-fence `for` loop of `nvdla_fill_postactions`. -/
def fillPostFences (env : Env) : List NvdlaFence →
    Except Int (List Action × List Nat)
  | [] => .ok ([], [])
  | f :: rest =>
    match postFenceActions env f with
    | .error e => .error e
    | .ok (a, p) =>
      match fillPostFences env rest with
      | .error e => .error e
      | .ok (as, ps) => .ok (a ++ as, p ++ ps)

/-- `nvdla_fill_postactions`: post-fence signals, then output-status writes,
then the terminate opcode. -/
def nvdla_fill_postactions (env : Env) (t : NvdlaTask) :
    Except Int (List Action × List Nat) :=
  match fillPostFences env t.postfences with
  | .error e => .error e
  | .ok (fa, fp) =>
    let s := fillStatusActions env .postTaskStatus t.out_task_status
    .ok (fa ++ s.1 ++ [.op .postTerminate], fp ++ s.2)

/-- `nvdla_get_max_preaction_size`, with the configured maxima
(`MAX_NUM_NVDLA_PREFENCES`, `MAX_NUM_NVDLA_IN_TASK_STATUS`, whose numeric
values live in `nvdla.h`, not under the sources) as parameters. -/
def nvdla_get_max_preaction_size (maxPre maxInStatus : Nat) : Nat :=
  (maxPre + maxInStatus) * opcodeBytes + maxPre * semActionBytes +
    maxInStatus * statusActionBytes + opcodeBytes

/-- `nvdla_get_max_postaction_size`, with the configured maxima as
parameters. -/
def nvdla_get_max_postaction_size (maxPost maxOutStatus : Nat) : Nat :=
  (maxPost + maxOutStatus) * opcodeBytes + maxPost * semActionBytes +
    maxOutStatus * statusActionBytes + opcodeBytes

/-- Modelled from the spec: the all-or-nothing batched pin call
(`nvhost_buffer_submit_pin` over an array): device addresses for every
handle, or `none` if any handle fails to pin. -/
def pinAll (env : Env) : List Nat → Option (List Nat)
  | [] => some []
  | h :: rest =>
    match env.pin h, pinAll env rest with
    | some d, some ds => some (d :: ds)
    | _, _ => none

/-- The handle array `nvdla_map_task_memory` builds in `task->memory_handles`:
empty when there is no address list, otherwise the address-list handle first
(`*handles++ = task->address_list.handle`) followed by the handles read out
of the address-list buffer. -/
def mapHandleArray (t : NvdlaTask) : List Nat :=
  if t.addresses.length = 0 then []
  else t.address_list.handle :: t.addresses.map NvdlaMemHandle.handle

/-- Result of `nvdla_map_task_memory`: the advertised handle array and count,
how many batched pin calls were issued, the patched descriptor field
`task_desc->address_list`, and the rewritten in-place address list (each
entry's returned device base plus its original relative offset). -/
structure MapResult where
  memory_handles : List Nat
  num_handles : Nat
  pinCalls : Nat
  address_list_iova : Option Nat
  resolved : List Nat
deriving Repr

/-- `nvdla_map_task_memory`: `num_handles` is `num_addresses + 1` when an
address list is present and 0 otherwise; with 0 handles it returns at once
with no pin call; otherwise it issues a single batched pin over the handle
array and patches descriptor and address list from the returned bases. -/
def nvdla_map_task_memory (env : Env) (t : NvdlaTask) : Except Int MapResult :=
  let n := if t.addresses.length ≠ 0 then t.addresses.length + 1 else 0
  if n = 0 then .ok ⟨[], 0, 0, none, []⟩
  else
    match pinAll env (mapHandleArray t) with
    | none => .error env.pinBatchErr
    | some dmas =>
      match dmas with
      | [] => .error env.pinBatchErr
      | d0 :: drest =>
        .ok { memory_handles := mapHandleArray t,
              num_handles := n,
              pinCalls := 1,
              address_list_iova := some (d0 + t.address_list.offset),
              resolved :=
                (drest.zip t.addresses).map fun p => p.1 + p.2.offset }

/-- `UINT_MAX` on the 32-bit `queue->sequence`. -/
def UINT_MAX : Nat := 4294967295

/-- The sequence bump in `nvdla_fill_task_desc`: increment, then wrap to 0
when the result reaches `UINT_MAX - 1`. -/
def nextSequence (seq : Nat) : Nat :=
  let s := seq + 1
  if s ≥ UINT_MAX - 1 then 0 else s

/-- Modelled from the spec: `DLA_DESCRIPTOR_VERSION` (exact numeral lives in
`dla_os_interface.h`, not under the sources; the value is immaterial here). -/
def DLA_DESCRIPTOR_VERSION : Nat := 1

/-- Modelled from the spec: `DLA_ENGINE_ID` (exact numeral immaterial). -/
def DLA_ENGINE_ID : Nat := 1

/-- Modelled from the spec: `MAX_NUM_ACTION_LIST` — DLA has one preaction
list and one postaction list. -/
def MAX_NUM_ACTION_LIST : Nat := 1

/-- The observable outcome of `nvdla_fill_task_desc`: static header fields,
and the raw results of the two fill calls — kept as `Except` values because
the source ignores both return values (lines 715 and 718), so an `-EINVAL`
from a fill does not stop the build.  When a fill fails its action-list
header (offset/size) is never written; that is visible here as the `.error`
branch of `preRes` / `postRes`. -/
structure DescBuild where
  version : Nat
  engine_id : Nat
  sequence : Nat
  num_preactions : Nat
  num_postactions : Nat
  preRes : Except Int (List Action × List Nat)
  postRes : Except Int (List Action × List Nat)
  mapRes : MapResult
deriving Repr

/-- `nvdla_fill_task_desc`: assign descriptor memory, fill static fields,
bump the sequence, call `nvdla_fill_preactions` and `nvdla_fill_postactions`
with their return values ignored, then `nvdla_map_task_memory`; only a
memory-assignment or mapping failure aborts the build. -/
def nvdla_fill_task_desc (env : Env) (seq : Nat) (t : NvdlaTask) :
    Except Int DescBuild :=
  match env.allocErr with
  | some e => .error e
  | none =>
    let pre := nvdla_fill_preactions env t
    let post := nvdla_fill_postactions env t
    match nvdla_map_task_memory env t with
    | .error e => .error e
    | .ok m =>
      .ok { version := DLA_DESCRIPTOR_VERSION,
            engine_id := DLA_ENGINE_ID,
            sequence := nextSequence seq,
            num_preactions := MAX_NUM_ACTION_LIST,
            num_postactions := MAX_NUM_ACTION_LIST,
            preRes := pre,
            postRes := post,
            mapRes := m }

/-- All handles pinned while building this descriptor, in pin order: pre-fill
pins, post-fill pins, then the batched map pins. -/
def DescBuild.pins (d : DescBuild) : List Nat :=
  (match d.preRes with | .ok pr => pr.2 | .error _ => []) ++
    (match d.postRes with | .ok pr => pr.2 | .error _ => []) ++
    d.mapRes.memory_handles

/-! Queue protocol: submit / completion sweep / abort.  The nvhost syncpoint
is modelled from the spec as a pair of counters: `cur` (the current value,
`min`) and `maxIssued` (the issued maximum, `max`);
`nvhost_syncpt_incr_max(sp, id, 1)` increments `maxIssued` and returns the
new value, `nvhost_syncpt_is_expired(sp, id, f)` holds when the counter has
reached `f` (`f ≤ cur`), and `nvdla_task_syncpt_reset` (the only definition
here taken from the sources, lines 162–168) force-sets `cur`. -/

/-- One in-flight task as the queue protocol sees it: an identity and the
fence target assigned at submission. -/
structure QTask where
  tid : Nat
  fence : Nat
deriving DecidableEq, Repr

/-- Queue-visible state: syncpoint current value, syncpoint issued maximum,
and the in-flight task list (oldest first). -/
structure QueueState where
  cur : Nat
  maxIssued : Nat
  tasklist : List QTask
deriving DecidableEq, Repr

/-- Outcome of one `nvdla_queue_submit` call: the new state, the returned
error, and whether `nvdla_send_cmd` was reached. -/
structure SubmitOutcome where
  state : QueueState
  result : Except Int Unit
  dispatched : Bool
deriving Repr

/-- `nvdla_queue_submit`: link the task at the tail, take the next fence
target (`nvhost_syncpt_incr_max .. 1`), register the completion notifier —
on notifier failure return the error right away (no dispatch, no rollback) —
then dispatch; on dispatch failure run `nvdla_task_syncpt_reset`, which
force-sets the counter's current value to the just-consumed fence target,
and return the error.  The task is never unlinked on failure. -/
def nvdla_queue_submit (registerErr dispatchErr : Option Int)
    (s : QueueState) (tid : Nat) : SubmitOutcome :=
  let fence := s.maxIssued + 1
  let linked := s.tasklist ++ [⟨tid, fence⟩]
  match registerErr with
  | some e =>
    { state := { cur := s.cur, maxIssued := fence, tasklist := linked },
      result := .error e, dispatched := false }
  | none =>
    match dispatchErr with
    | some e =>
      { state := { cur := fence, maxIssued := fence, tasklist := linked },
        result := .error e, dispatched := true }
    | none =>
      { state := { cur := s.cur, maxIssued := fence, tasklist := linked },
        result := .ok (), dispatched := true }

/-- `nvdla_queue_update` (the completion sweep): walk the in-flight list and
free every task whose fence target the counter has reached; the surviving
list and the released tasks, both in list order. -/
def nvdla_queue_update (s : QueueState) : QueueState × List QTask :=
  ({ cur := s.cur, maxIssued := s.maxIssued,
     tasklist := s.tasklist.filter fun t => !decide (t.fence ≤ s.cur) },
   s.tasklist.filter fun t => decide (t.fence ≤ s.cur))

/-- Modelled from the spec: `DLA_ERR_PROCESSOR_BUSY`, the retryable engine
response inside abort's flush loop (numeral from `dla_os_interface.h`,
immaterial beyond being nonzero and distinct). -/
def DLA_ERR_PROCESSOR_BUSY : Int := 4

/-- `NVDLA_QUEUE_ABORT_TIMEOUT / NVDLA_QUEUE_ABORT_RETRY_PERIOD` = 20. -/
def abortRetryBudget : Nat := 10000 / 500

/-- The `do { err = nvdla_send_cmd(FLUSH); ... } while (--retry)` loop of
`nvdla_queue_abort`.  `engine i` is the engine's response to the i-th flush
command.  Returns (final error, commands issued, remaining retry counter);
the source treats `retry == 0` afterward as exhaustion. -/
def flushLoop (engine : Nat → Int) (i : Nat) : Nat → Int × Nat × Nat
  | 0 => (engine i, 1, 0)
  | r + 1 =>
    let err := engine i
    if err = DLA_ERR_PROCESSOR_BUSY then
      if r = 0 then (err, 1, 0)
      else
        let rec' := flushLoop engine (i + 1) r
        (rec'.1, rec'.2.1 + 1, rec'.2.2)
    else (err, 1, r + 1)

/-- Outcome of `nvdla_queue_abort`: final state, returned error, and number
of engine commands issued. -/
structure AbortOutcome where
  state : QueueState
  err : Int
  commands : Nat
deriving Repr

/-- `nvdla_queue_abort`: an empty in-flight list returns success immediately
with no engine command; otherwise retry the flush command (busy responses
retry, bounded by `abortRetryBudget`), and on a clean flush force-set the
counter's current value to the *last* in-flight task's fence target via
`nvdla_task_syncpt_reset`.  The task list itself is not touched. -/
def nvdla_queue_abort (engine : Nat → Int) (s : QueueState) : AbortOutcome :=
  if s.tasklist = [] then ⟨s, 0, 0⟩
  else
    let fl := flushLoop engine 0 abortRetryBudget
    if fl.2.2 = 0 ∨ fl.1 ≠ 0 then ⟨s, fl.1, fl.2.1⟩
    else
      match s.tasklist.getLast? with
      | none => ⟨s, fl.1, fl.2.1⟩
      | some t => ⟨{ s with cur := t.fence }, fl.1, fl.2.1⟩

/-- Lines 788–791 of `nvdla_queue_submit`: the newly assigned fence target is
passed back "through the 0th postfence" — the *task structure's*
`postfences[0].syncpoint_index/value` fields are overwritten; the encoded
signal record in the descriptor is not touched. -/
def submit_record_fence (t : NvdlaTask) (syncptId fence : Nat) : NvdlaTask :=
  { t with postfences :=
      match t.postfences with
      | [] => []
      | f :: rest =>
        { f with syncpoint_index := syncptId, syncpoint_value := fence } ::
          rest }

/-- Build followed by a successful submit.  The descriptor build is returned
unchanged alongside the submit outcome: `nvdla_queue_submit` writes only the
task structure's 0th postfence (lines 788–791) and the *previous* tail's
descriptor `next` pointer (line 761), never this task's encoded action
lists. -/
def nvdla_build_and_submit (env : Env) (seq : Nat) (t : NvdlaTask)
    (s : QueueState) (tid : Nat) :
    Except Int (DescBuild × NvdlaTask × SubmitOutcome) :=
  match nvdla_fill_task_desc env seq t with
  | .error e => .error e
  | .ok d =>
    let o := nvdla_queue_submit none none s tid
    .ok (d, submit_record_fence t env.queueSyncptId o.state.maxIssued, o)

/-! Task lifecycle: reference counting and teardown.  `TaskRefState` tracks
the observable effects: the task's kref, the queue reference count held on
its behalf, the syncpoint reference, the multiset of unpin calls issued, and
which frees have happened. -/

/-- Observable lifecycle state of one task. -/
structure TaskRefState where
  refs : Nat
  queueRefs : Nat
  syncptRefs : Nat
  unpins : List Nat
  descFreed : Bool
  handleArrayFreed : Bool
  taskFreed : Bool
  inList : Bool
deriving DecidableEq, Repr

/-- `task_free` (the kref release callback): frees the descriptor pool slot,
frees the handle array when one was allocated, frees the task object.
It unpins nothing. -/
def task_free (memory_handles : List Nat) (st : TaskRefState) :
    TaskRefState :=
  { st with descFreed := true,
            handleArrayFreed := memory_handles ≠ [],
            taskFreed := true }

/-- `nvdla_task_put`: drop one queue reference, drop one kref; at zero the
kref release callback `task_free` runs. -/
def nvdla_task_put (memory_handles : List Nat) (st : TaskRefState) :
    TaskRefState :=
  let st' := { st with queueRefs := st.queueRefs - 1, refs := st.refs - 1 }
  if st'.refs = 0 then task_free memory_handles st' else st'

/-- `nvdla_task_get`: take one kref and one queue reference in lock-step. -/
def nvdla_task_get (st : TaskRefState) : TaskRefState :=
  { st with refs := st.refs + 1, queueRefs := st.queueRefs + 1 }

/-- The unpin calls `nvdla_task_free_locked` issues, in source order: the
direct handle array (when nonempty), then semaphore pre-fence handles, then
input-status handles, then (timestamp-)semaphore post-fence handles, then
output-status handles — each guarded by a nonzero handle (and the matching
fence type). -/
def freeLockedUnpins (t : NvdlaTask) (memory_handles : List Nat) :
    List Nat :=
  memory_handles ++
    ((t.prefences.filter fun f =>
        decide (f.type = .semaphore) && decide (f.sem_handle ≠ 0)).map
      NvdlaFence.sem_handle) ++
    ((t.in_task_status.filter fun e => decide (e.handle ≠ 0)).map
      NvdlaStatusEntry.handle) ++
    ((t.postfences.filter fun f =>
        (decide (f.type = .semaphore) || decide (f.type = .tsSemaphore)) &&
          decide (f.sem_handle ≠ 0)).map
      NvdlaFence.sem_handle) ++
    ((t.out_task_status.filter fun e => decide (e.handle ≠ 0)).map
      NvdlaStatusEntry.handle)

/-- `nvdla_task_free_locked` (the completion-sweep teardown): put the
syncpoint reference, issue every unpin, unlink the task from the in-flight
list, then `nvdla_task_put`. -/
def nvdla_task_free_locked (t : NvdlaTask) (memory_handles : List Nat)
    (st : TaskRefState) : TaskRefState :=
  nvdla_task_put memory_handles
    { st with syncptRefs := st.syncptRefs - 1,
              unpins := st.unpins ++ freeLockedUnpins t memory_handles,
              inList := false }

/-- Queue invariant established by submission: in-flight fence targets are
strictly increasing in list (submission) order and never exceed the
counter's issued maximum. -/
def QueueInv (s : QueueState) : Prop :=
  (s.tasklist.map QTask.fence).Pairwise (· < ·) ∧
    ∀ t ∈ s.tasklist, t.fence ≤ s.maxIssued

instance (s : QueueState) : Decidable (QueueInv s) := by
  unfold QueueInv
  infer_instance

/-- The spec's completion scenario: fence targets 5, 6, 7 in flight, counter
current value 6, issued maximum 7. -/
def scenarioC1 : QueueState := ⟨6, 7, [⟨1, 5⟩, ⟨2, 6⟩, ⟨3, 7⟩]⟩

/-- C4 counterexample input: an address list (handle 100) whose buffer holds
two embedded handles, 7 and 9. -/
def taskC4 : NvdlaTask :=
  { address_list := ⟨100, 0⟩, addresses := [⟨7, 0⟩, ⟨9, 4⟩] }

/-- Environment for the C4 counterexample: every pin succeeds. -/
def envC4 : Env :=
  { pin := fun h => some (h * 16), syncptAddr := fun i => i,
    validHwPt := fun _ => true, fdget := fun _ => none }

/-- The handle array of a map result (empty on error). -/
def mapHandlesOf : Except Int MapResult → List Nat
  | .ok m => m.memory_handles
  | .error _ => []

/-- C2 failing input: a task whose single pre-fence has an unrecognized
type (raw value 99); no post-fences, no status entries, no address list. -/
def taskC2 : NvdlaTask := { prefences := [{ type := .unrecognized 99 }] }

/-- Environment for C2 (its collaborators are never consulted on this
input beyond the trivial empty mapping). -/
def envC2 : Env :=
  { pin := fun _ => none, syncptAddr := fun i => i,
    validHwPt := fun _ => true, fdget := fun _ => none }

/-- C7 input pre-fence: counter-wait on syncpoint 3 for target 10. -/
def waitFenceC7 : NvdlaFence := { type := .syncpt, syncpoint_index := 3, syncpoint_value := 10 }

/-- C7 input: one pre-fence of kind counter-wait (syncpoint 3, target 10)
and one post-fence of kind counter-signal. -/
def taskC7 : NvdlaTask :=
  { prefences := [waitFenceC7], postfences := [{ type := .syncpt }] }

/-- Environment for C7: the queue signals syncpoint 5; syncpoint i lives at
device address 100 + i. -/
def envC7 : Env :=
  { pin := fun _ => none, syncptAddr := fun i => 100 + i,
    validHwPt := fun _ => true, fdget := fun _ => none,
    queueSyncptId := 5 }

/-- C9 counterexample inputs: two input-status entries; pinning handle 3
fails, pinning handle 4 would succeed. -/
def statusA : NvdlaStatusEntry := { handle := 3, offset := 0, status := 1 }

/-- Second status entry for C9 (its pin would succeed). -/
def statusB : NvdlaStatusEntry := { handle := 4, offset := 0, status := 2 }

/-- Environment for C9: handle 3 fails to pin, everything else pins. -/
def envC9 : Env :=
  { pin := fun h => if h = 3 then none else some (10 * h),
    syncptAddr := fun i => i, validHwPt := fun _ => true,
    fdget := fun _ => none }

/-- Task for C9: no fences, two input-status entries. -/
def taskC9 : NvdlaTask := { in_task_status := [statusA, statusB] }

/-- C8 failing input: a task with a single pre-fence of kind sync-fd; the
sync file behind it may carry arbitrarily many (id, threshold) pairs. -/
def overflowTask : NvdlaTask :=
  { prefences := [{ type := .syncFd, sync_fd := 1 }] }

/-- Environment for C8: the sync file carries `k` valid pairs
(ids 1..k, thresholds 0). -/
def overflowEnv (k : Nat) : Env :=
  { pin := fun _ => none, syncptAddr := fun i => i,
    validHwPt := fun _ => true,
    fdget := fun _ => some ((List.range k).map fun i => (i + 1, 0)) }

/-- A pre-fence whose fill step succeeds and whose pin (if any) succeeds on
a nonzero handle. -/
def preFenceOK (env : Env) (f : NvdlaFence) : Prop :=
  f.type = .syncFd ∨ f.type = .syncpt ∨
    (f.type = .semaphore ∧ f.sem_handle ≠ 0 ∧ (env.pin f.sem_handle).isSome)

/-- A post-fence whose fill step succeeds and whose pin (if any) succeeds on
a nonzero handle. -/
def postFenceOK (env : Env) (f : NvdlaFence) : Prop :=
  f.type = .syncpt ∨
    ((f.type = .semaphore ∨ f.type = .tsSemaphore) ∧ f.sem_handle ≠ 0 ∧
      (env.pin f.sem_handle).isSome)

instance (env : Env) (f : NvdlaFence) : Decidable (preFenceOK env f) := by
  unfold preFenceOK
  infer_instance

instance (env : Env) (f : NvdlaFence) : Decidable (postFenceOK env f) := by
  unfold postFenceOK
  infer_instance

/-- C3 counterexample input: a task with one semaphore pre-fence whose
handle 7 gets pinned during the build; nothing else. -/
def taskC3 : NvdlaTask :=
  { prefences := [{ type := .semaphore, sem_handle := 7 }] }

/-- Environment for C3: every pin succeeds (handle h maps to h + 50). -/
def envC3 : Env :=
  { pin := fun h => some (h + 50), syncptAddr := fun i => i,
    validHwPt := fun _ => true, fdget := fun _ => none }

/-- The descriptor `nvdla_fill_task_desc envC3 0 taskC3` builds. -/
def dC3 : DescBuild :=
  { version := DLA_DESCRIPTOR_VERSION, engine_id := DLA_ENGINE_ID,
    sequence := 1, num_preactions := MAX_NUM_ACTION_LIST,
    num_postactions := MAX_NUM_ACTION_LIST,
    preRes := .ok ([.sem .preSemGE 57 0, .op .preTerminate], [7]),
    postRes := .ok ([.op .postTerminate], []),
    mapRes := ⟨[], 0, 0, none, []⟩ }

/-- The nonzero semaphore pre-fence handles (pinned by the pre-fence loop
and unpinned by `nvdla_task_free_locked`). -/
def preSemPins (t : NvdlaTask) : List Nat :=
  (t.prefences.filter fun f =>
    decide (f.type = .semaphore) && decide (f.sem_handle ≠ 0)).map
    NvdlaFence.sem_handle

/-- The nonzero input-status handles. -/
def inStatusPins (t : NvdlaTask) : List Nat :=
  (t.in_task_status.filter fun e => decide (e.handle ≠ 0)).map
    NvdlaStatusEntry.handle

/-- The nonzero (timestamp-)semaphore post-fence handles. -/
def postSemPins (t : NvdlaTask) : List Nat :=
  (t.postfences.filter fun f =>
    (decide (f.type = .semaphore) || decide (f.type = .tsSemaphore)) &&
      decide (f.sem_handle ≠ 0)).map NvdlaFence.sem_handle

/-- The nonzero output-status handles. -/
def outStatusPins (t : NvdlaTask) : List Nat :=
  (t.out_task_status.filter fun e => decide (e.handle ≠ 0)).map
    NvdlaStatusEntry.handle

/-- The descriptor a fully-pinnable task builds (used to state C3). -/
def builtDesc (env : Env) (t : NvdlaTask) (seq : Nat) (pa qa : List Action) (m : MapResult) : DescBuild where
  version := DLA_DESCRIPTOR_VERSION
  engine_id := DLA_ENGINE_ID
  sequence := nextSequence seq
  num_preactions := MAX_NUM_ACTION_LIST
  num_postactions := MAX_NUM_ACTION_LIST
  preRes := .ok (pa ++ (fillStatusActions env .preTaskStatus t.in_task_status).1 ++ [.op .preTerminate], preSemPins t ++ inStatusPins t)
  postRes := .ok (qa ++ (fillStatusActions env .postTaskStatus t.out_task_status).1 ++ [.op .postTerminate], postSemPins t ++ outStatusPins t)
  mapRes := m

/-! Theorems. -/

/-- On a list with strictly increasing fence targets, the tasks whose target
the counter has reached form a prefix: filtering them is `takeWhile`, and
the survivors are `dropWhile`. -/
theorem filter_sorted_split (cur : Nat) :
    ∀ l : List QTask, (l.map QTask.fence).Pairwise (· < ·) →
      l.filter (fun t => decide (t.fence ≤ cur)) =
          l.takeWhile (fun t => decide (t.fence ≤ cur)) ∧
        l.filter (fun t => !decide (t.fence ≤ cur)) =
          l.dropWhile (fun t => decide (t.fence ≤ cur))
  | [], _ => ⟨rfl, rfl⟩
  | t :: rest, hp => by
    simp only [List.map_cons, List.pairwise_cons] at hp
    obtain ⟨hlt, hrest⟩ := hp
    have ih := filter_sorted_split cur rest hrest
    by_cases h : t.fence ≤ cur
    · simp [List.filter_cons, List.takeWhile_cons, List.dropWhile_cons, h,
        ih.1, ih.2]
    · have h1 : rest.filter (fun t => decide (t.fence ≤ cur)) = [] := by
        rw [List.filter_eq_nil_iff]
        intro u hu
        have := hlt u.fence (List.mem_map_of_mem QTask.fence hu)
        simp only [decide_eq_true_eq]
        omega
      have h2 : rest.filter (fun t => !decide (t.fence ≤ cur)) = rest := by
        rw [List.filter_eq_self]
        intro u hu
        have := hlt u.fence (List.mem_map_of_mem QTask.fence hu)
        simp only [Bool.not_eq_true', decide_eq_false_iff_not]
        omega
      simp [List.filter_cons, List.takeWhile_cons, List.dropWhile_cons, h,
        h1, h2]

/-- C1: fence targets are assigned in strictly increasing order — each
submit raises the issued maximum by exactly one and the new task's target
exceeds every in-flight target — and the completion sweep releases exactly
the in-flight tasks whose target the counter's current value has reached, in
FIFO (list) order: the released tasks are the leading prefix of the list, so
a task submitted earlier is released no later than a later one, and an
unreached task survives with its fence target unchanged. -/
theorem claim1_fifo_ordering (s : QueueState) (tid : Nat)
    (hinv : QueueInv s) :
    ((nvdla_queue_submit none none s tid).state.maxIssued = s.maxIssued + 1 ∧
      (nvdla_queue_submit none none s tid).state.tasklist =
        s.tasklist ++ [⟨tid, s.maxIssued + 1⟩] ∧
      ∀ t ∈ s.tasklist, t.fence < s.maxIssued + 1) ∧
    ((nvdla_queue_update s).2 =
        s.tasklist.takeWhile (fun t => decide (t.fence ≤ s.cur)) ∧
      (nvdla_queue_update s).1.tasklist =
        s.tasklist.dropWhile (fun t => decide (t.fence ≤ s.cur)) ∧
      (nvdla_queue_update s).2 ++ (nvdla_queue_update s).1.tasklist =
        s.tasklist ∧
      (∀ t ∈ (nvdla_queue_update s).2, t.fence ≤ s.cur) ∧
      (∀ t ∈ (nvdla_queue_update s).1.tasklist, s.cur < t.fence) ∧
      (nvdla_queue_update s).1.cur = s.cur ∧
      (nvdla_queue_update s).1.maxIssued = s.maxIssued) := by
  obtain ⟨hpw, hle⟩ := hinv
  have hs := filter_sorted_split s.cur s.tasklist hpw
  refine ⟨⟨rfl, rfl, fun t ht => Nat.lt_succ_of_le (hle t ht)⟩,
    hs.1, hs.2, ?_, ?_, ?_, rfl, rfl⟩
  · rw [show (nvdla_queue_update s).2 ++ (nvdla_queue_update s).1.tasklist =
        s.tasklist.filter (fun t => decide (t.fence ≤ s.cur)) ++
          s.tasklist.filter (fun t => !decide (t.fence ≤ s.cur)) from rfl,
      hs.1, hs.2]
    exact List.takeWhile_append_dropWhile _ _
  · intro t ht
    have ht' : t ∈ s.tasklist.filter (fun t => decide (t.fence ≤ s.cur)) := ht
    simp only [List.mem_filter, decide_eq_true_eq] at ht'
    exact ht'.2
  · intro t ht
    have ht' : t ∈ s.tasklist.filter (fun t => !decide (t.fence ≤ s.cur)) :=
      ht
    simp only [List.mem_filter, Bool.not_eq_true', decide_eq_false_iff_not]
      at ht'
    omega

/-- Witness for C1 at the spec scenario: tasks T1 (fence 5) and T2 (fence 6)
are released in order, T3 (fence 7) stays in flight with its target
unchanged. -/
theorem claim1_fifo_ordering_witness :
    QueueInv scenarioC1 ∧
      (((nvdla_queue_submit none none scenarioC1 4).state.maxIssued =
          scenarioC1.maxIssued + 1 ∧
        (nvdla_queue_submit none none scenarioC1 4).state.tasklist =
          scenarioC1.tasklist ++ [⟨4, scenarioC1.maxIssued + 1⟩] ∧
        ∀ t ∈ scenarioC1.tasklist, t.fence < scenarioC1.maxIssued + 1) ∧
      ((nvdla_queue_update scenarioC1).2 =
          scenarioC1.tasklist.takeWhile
            (fun t => decide (t.fence ≤ scenarioC1.cur)) ∧
        (nvdla_queue_update scenarioC1).1.tasklist =
          scenarioC1.tasklist.dropWhile
            (fun t => decide (t.fence ≤ scenarioC1.cur)) ∧
        (nvdla_queue_update scenarioC1).2 ++
            (nvdla_queue_update scenarioC1).1.tasklist =
          scenarioC1.tasklist ∧
        (∀ t ∈ (nvdla_queue_update scenarioC1).2,
          t.fence ≤ scenarioC1.cur) ∧
        (∀ t ∈ (nvdla_queue_update scenarioC1).1.tasklist,
          scenarioC1.cur < t.fence) ∧
        (nvdla_queue_update scenarioC1).1.cur = scenarioC1.cur ∧
        (nvdla_queue_update scenarioC1).1.maxIssued =
          scenarioC1.maxIssued)) :=
  ⟨by decide, claim1_fifo_ordering scenarioC1 4 (by decide)⟩

/-- C10: if registering the completion notifier fails during submit, submit
returns that error while the task remains linked at the tail of the
in-flight list with a fence target already consumed (the issued maximum
stays incremented), no command is dispatched to the engine, the counter is
not rolled back, and the normal completion sweep does not release the task
(its target is beyond the counter's current value). -/
theorem claim10_register_fail (s : QueueState) (tid : Nat) (e : Int)
    (hcur : s.cur ≤ s.maxIssued) :
    (nvdla_queue_submit (some e) none s tid).result = .error e ∧
    (nvdla_queue_submit (some e) none s tid).dispatched = false ∧
    (nvdla_queue_submit (some e) none s tid).state.tasklist =
      s.tasklist ++ [⟨tid, s.maxIssued + 1⟩] ∧
    (nvdla_queue_submit (some e) none s tid).state.maxIssued =
      s.maxIssued + 1 ∧
    (nvdla_queue_submit (some e) none s tid).state.cur = s.cur ∧
    (⟨tid, s.maxIssued + 1⟩ : QTask) ∈
      (nvdla_queue_update
        (nvdla_queue_submit (some e) none s tid).state).1.tasklist := by
  refine ⟨rfl, rfl, rfl, rfl, rfl, ?_⟩
  have hm : (⟨tid, s.maxIssued + 1⟩ : QTask) ∈
      (s.tasklist ++ ([⟨tid, s.maxIssued + 1⟩] : List QTask)).filter
        (fun t => !decide (t.fence ≤ s.cur)) := by
    rw [List.mem_filter]
    refine ⟨List.mem_append_right _ (List.mem_singleton_self _), ?_⟩
    simp only [Bool.not_eq_true', decide_eq_false_iff_not]
    omega
  exact hm

/-- Witness for C10 on an idle queue. -/
theorem claim10_register_fail_witness :
    (0 : Nat) ≤ 0 ∧
      ((nvdla_queue_submit (some (-5)) none ⟨0, 0, []⟩ 1).result =
          .error (-5) ∧
        (nvdla_queue_submit (some (-5)) none ⟨0, 0, []⟩ 1).dispatched =
          false ∧
        (nvdla_queue_submit (some (-5)) none ⟨0, 0, []⟩ 1).state.tasklist =
          [] ++ [⟨1, 0 + 1⟩] ∧
        (nvdla_queue_submit (some (-5)) none ⟨0, 0, []⟩ 1).state.maxIssued =
          0 + 1 ∧
        (nvdla_queue_submit (some (-5)) none ⟨0, 0, []⟩ 1).state.cur = 0 ∧
        (⟨1, 0 + 1⟩ : QTask) ∈
          (nvdla_queue_update
            (nvdla_queue_submit (some (-5)) none ⟨0, 0, []⟩ 1).state).1.tasklist) :=
  ⟨Nat.le_refl 0, claim10_register_fail ⟨0, 0, []⟩ 1 (-5) (Nat.le_refl 0)⟩

/-- C5 counterexample: from an idle queue (current value 0, issued maximum
0), a submit whose engine dispatch fails returns the error and leaves the
task linked — but the rollback writes the counter's *current value* to the
just-consumed fence target (current value becomes 1, though it was 0 and no
hardware increment happened), so the "rolled-back" task is in fact released
by the very next sweep.  This refutes the claim that the rollback resets
only the counter's issued maximum (which would leave the current value at 0
and the task permanently in flight). -/
theorem claim5_counterexample :
    (nvdla_queue_submit none (some (-5)) ⟨0, 0, []⟩ 1).result =
      .error (-5) ∧
    (nvdla_queue_submit none (some (-5)) ⟨0, 0, []⟩ 1).state.tasklist =
      [⟨1, 1⟩] ∧
    (nvdla_queue_submit none (some (-5)) ⟨0, 0, []⟩ 1).state.cur = 1 ∧
    (1 : Nat) ≠ 0 ∧
    (nvdla_queue_update
      (nvdla_queue_submit none (some (-5)) ⟨0, 0, []⟩ 1).state).2 =
      [⟨1, 1⟩] :=
  ⟨rfl, rfl, rfl, by decide, rfl⟩

/-- C5 (amended): if the dispatch-to-engine command fails, submit force-sets
the counter's *current value* to the fence target just consumed (the same
syncpoint reset used by abort, which marks the target as reached so a
subsequent sweep releases the task), surfaces the error to the caller, and
leaves the task linked in the in-flight list; the issued maximum stays at
its incremented value. -/
theorem claim5_dispatch_fail (s : QueueState) (tid : Nat) (e : Int) :
    (nvdla_queue_submit none (some e) s tid).result = .error e ∧
    (nvdla_queue_submit none (some e) s tid).state.tasklist =
      s.tasklist ++ [⟨tid, s.maxIssued + 1⟩] ∧
    (nvdla_queue_submit none (some e) s tid).state.maxIssued =
      s.maxIssued + 1 ∧
    (nvdla_queue_submit none (some e) s tid).state.cur = s.maxIssued + 1 ∧
    (⟨tid, s.maxIssued + 1⟩ : QTask) ∈
      (nvdla_queue_update (nvdla_queue_submit none (some e) s tid).state).2 := by
  refine ⟨rfl, rfl, rfl, rfl, ?_⟩
  have hm : (⟨tid, s.maxIssued + 1⟩ : QTask) ∈
      (s.tasklist ++ ([⟨tid, s.maxIssued + 1⟩] : List QTask)).filter
        (fun t => decide (t.fence ≤ s.maxIssued + 1)) := by
    rw [List.mem_filter]
    exact ⟨List.mem_append_right _ (List.mem_singleton_self _), by simp⟩
  exact hm

/-- Every in-flight fence target is bounded by the last task's target when
targets are strictly increasing in list order. -/
theorem fence_le_getLast :
    ∀ (l : List QTask), (l.map QTask.fence).Pairwise (· < ·) →
      ∀ last, l.getLast? = some last → ∀ t ∈ l, t.fence ≤ last.fence
  | [], _, _, h => by simp at h
  | [x], _, last, h => by
    intro t ht
    rw [List.getLast?_singleton] at h
    cases h
    simp only [List.mem_singleton] at ht
    cases ht
    exact Nat.le_refl _
  | x :: y :: rest, hp, last, h => by
    intro t ht
    rw [List.getLast?_cons_cons] at h
    simp only [List.map_cons, List.pairwise_cons] at hp
    obtain ⟨hlt, hrest⟩ := hp
    have ih := fence_le_getLast (y :: rest) (by
      simpa using hrest) last h
    rcases List.mem_cons.mp ht with rfl | hmem
    · have hy := ih y (List.mem_cons_self y rest)
      have := hlt y.fence (by simp)
      omega
    · exact ih t hmem

/-- C6 counterexample: a queue with one in-flight task (fence target 42) and
an engine that flushes cleanly on the first attempt — `nvdla_queue_abort`
returns success, yet the in-flight list still holds the task when the call
returns (the function resets the counter but never touches the list, so the
task has not been released).  This refutes "the in-flight list is empty, and
every previously-submitted task has been released" as a postcondition of the
call itself. -/
theorem claim6_counterexample :
    (nvdla_queue_abort (fun _ => 0) ⟨0, 42, [⟨1, 42⟩]⟩).err = 0 ∧
    (nvdla_queue_abort (fun _ => 0) ⟨0, 42, [⟨1, 42⟩]⟩).state.tasklist =
      [⟨1, 42⟩] ∧
    ([⟨1, 42⟩] : List QTask) ≠ [] :=
  ⟨rfl, rfl, by decide⟩

/-- C6 (amended): on an already-empty queue `nvdla_queue_abort` returns
success immediately without issuing any engine command; on a non-empty queue
whose flush succeeds within the retry budget, it returns success with the
counter's current value force-reset to the last in-flight task's fence
target — which logically completes every task in the list — while the list
itself is untouched: it is the *subsequent* completion sweep that releases
every previously-submitted task and leaves the in-flight list empty. -/
theorem claim6_abort (engine : Nat → Int) (s : QueueState)
    (hpw : (s.tasklist.map QTask.fence).Pairwise (· < ·))
    (hok : (flushLoop engine 0 abortRetryBudget).1 = 0)
    (hretry : (flushLoop engine 0 abortRetryBudget).2.2 ≠ 0) :
    (s.tasklist = [] → nvdla_queue_abort engine s = ⟨s, 0, 0⟩) ∧
    (∀ last, s.tasklist.getLast? = some last →
      (nvdla_queue_abort engine s).err = 0 ∧
      (nvdla_queue_abort engine s).state.cur = last.fence ∧
      (nvdla_queue_abort engine s).state.tasklist = s.tasklist ∧
      (nvdla_queue_update (nvdla_queue_abort engine s).state).1.tasklist =
        [] ∧
      (nvdla_queue_update (nvdla_queue_abort engine s).state).2 =
        s.tasklist) := by
  constructor
  · intro hnil
    simp [nvdla_queue_abort, hnil]
  · intro last hlast
    have hne : ¬ s.tasklist = [] := by
      intro hnil
      rw [hnil] at hlast
      simp at hlast
    have habort : nvdla_queue_abort engine s =
        ⟨{ s with cur := last.fence }, (flushLoop engine 0 abortRetryBudget).1,
          (flushLoop engine 0 abortRetryBudget).2.1⟩ := by
      rw [nvdla_queue_abort, if_neg hne, if_neg (by
        simp only [not_or]
        exact ⟨hretry, by simp [hok]⟩), hlast]
    have hbound := fence_le_getLast s.tasklist hpw last hlast
    rw [habort]
    refine ⟨hok, rfl, rfl, ?_, ?_⟩
    · show s.tasklist.filter (fun t => !decide (t.fence ≤ last.fence)) = []
      rw [List.filter_eq_nil_iff]
      intro t ht
      simp only [Bool.not_eq_true', decide_eq_false_iff_not, not_not]
      exact hbound t ht
    · show s.tasklist.filter (fun t => decide (t.fence ≤ last.fence)) =
        s.tasklist
      rw [List.filter_eq_self]
      intro t ht
      simp only [decide_eq_true_eq]
      exact hbound t ht

/-- Witness for C6: two in-flight tasks with fence targets 41 and 42 and an
engine that flushes cleanly on the first attempt. -/
theorem claim6_abort_witness :
    (([⟨1, 41⟩, ⟨2, 42⟩] : List QTask).map QTask.fence).Pairwise (· < ·) ∧
      (flushLoop (fun _ => 0) 0 abortRetryBudget).1 = 0 ∧
      (flushLoop (fun _ => 0) 0 abortRetryBudget).2.2 ≠ 0 ∧
      (((⟨0, 42, [⟨1, 41⟩, ⟨2, 42⟩]⟩ : QueueState).tasklist = [] →
          nvdla_queue_abort (fun _ => 0) ⟨0, 42, [⟨1, 41⟩, ⟨2, 42⟩]⟩ =
            ⟨⟨0, 42, [⟨1, 41⟩, ⟨2, 42⟩]⟩, 0, 0⟩) ∧
        (∀ last,
          (⟨0, 42, [⟨1, 41⟩, ⟨2, 42⟩]⟩ : QueueState).tasklist.getLast? =
            some last →
          (nvdla_queue_abort (fun _ => 0)
            ⟨0, 42, [⟨1, 41⟩, ⟨2, 42⟩]⟩).err = 0 ∧
          (nvdla_queue_abort (fun _ => 0)
            ⟨0, 42, [⟨1, 41⟩, ⟨2, 42⟩]⟩).state.cur = last.fence ∧
          (nvdla_queue_abort (fun _ => 0)
            ⟨0, 42, [⟨1, 41⟩, ⟨2, 42⟩]⟩).state.tasklist =
            [⟨1, 41⟩, ⟨2, 42⟩] ∧
          (nvdla_queue_update (nvdla_queue_abort (fun _ => 0)
            ⟨0, 42, [⟨1, 41⟩, ⟨2, 42⟩]⟩).state).1.tasklist = [] ∧
          (nvdla_queue_update (nvdla_queue_abort (fun _ => 0)
            ⟨0, 42, [⟨1, 41⟩, ⟨2, 42⟩]⟩).state).2 =
            [⟨1, 41⟩, ⟨2, 42⟩])) :=
  ⟨by decide, by decide, by decide,
    claim6_abort (fun _ => 0) ⟨0, 42, [⟨1, 41⟩, ⟨2, 42⟩]⟩ (by decide)
      (by decide) (by decide)⟩

/-- A successful pin batch returns one device address per handle. -/
theorem pinAll_length (env : Env) :
    ∀ l ds, pinAll env l = some ds → ds.length = l.length
  | [], ds, h => by
    simp only [pinAll, Option.some.injEq] at h
    rw [← h]
  | h :: rest, ds, hp => by
    simp only [pinAll] at hp
    cases hpin : env.pin h with
    | none => rw [hpin] at hp; simp at hp
    | some d =>
      rw [hpin] at hp
      cases hrest : pinAll env rest with
      | none => rw [hrest] at hp; simp at hp
      | some ds' =>
        rw [hrest] at hp
        simp only [Option.some.injEq] at hp
        rw [← hp]
        simp [pinAll_length env rest ds' hrest]

/-- C4 counterexample: with embedded handles 7 and 9 and address-list handle
100, `nvdla_map_task_memory` advertises the batched pin array
`[100, 7, 9]` — the address-list handle comes *first* (the source writes
`*handles++ = task->address_list.handle` before dereferencing the list),
not last as claimed: the claimed array would be `[7, 9, 100]`. -/
theorem claim4_counterexample :
    mapHandlesOf (nvdla_map_task_memory envC4 taskC4) = [100, 7, 9] ∧
    ([100, 7, 9] : List Nat) ≠ [7, 9, 100] :=
  ⟨rfl, by decide⟩

/-- C4 (amended): the resolver advertises `H_used + 1` handles in one
batched pin call when an address list is present — the address-list handle
*first*, followed by the dereferenced handles — and advertises no handles
and issues no pin call otherwise. -/
theorem claim4_handle_array (env : Env) (t : NvdlaTask)
    (hpin : pinAll env (mapHandleArray t) ≠ none) :
    (t.addresses.length = 0 →
      nvdla_map_task_memory env t = .ok ⟨[], 0, 0, none, []⟩) ∧
    (t.addresses.length ≠ 0 →
      ∃ m, nvdla_map_task_memory env t = .ok m ∧
        m.num_handles = t.addresses.length + 1 ∧
        m.memory_handles =
          t.address_list.handle :: t.addresses.map NvdlaMemHandle.handle ∧
        m.memory_handles.length = t.addresses.length + 1 ∧
        m.pinCalls = 1) := by
  constructor
  · intro h0
    simp [nvdla_map_task_memory, h0]
  · intro hne
    have hml : mapHandleArray t =
        t.address_list.handle :: t.addresses.map NvdlaMemHandle.handle := by
      simp [mapHandleArray, hne]
    cases hp : pinAll env (mapHandleArray t) with
    | none => exact absurd hp hpin
    | some dmas =>
      cases dmas with
      | nil =>
        have hlen := pinAll_length env _ _ hp
        rw [hml] at hlen
        simp at hlen
      | cons d0 drest =>
        refine ⟨⟨mapHandleArray t, t.addresses.length + 1, 1,
          some (d0 + t.address_list.offset),
          (drest.zip t.addresses).map fun p => p.1 + p.2.offset⟩,
          ?_, rfl, hml, ?_, rfl⟩
        · simp only [nvdla_map_task_memory, hp]
          simp [hne]
        · simp [hml]

/-- C2: an unrecognized pre-fence kind makes `nvdla_fill_preactions` return
`-EINVAL` — but `nvdla_fill_task_desc` ignores the return values of both
fill calls (source lines 715 and 718) and completes with success, returning
a descriptor whose preaction-list header was never written.  The claim (and
the spec) say the build aborts and propagates the malformed-request error to
the caller; the code drops it. -/
theorem claim2_error_dropped :
    nvdla_fill_preactions envC2 taskC2 = .error (-EINVAL) ∧
    nvdla_fill_task_desc envC2 0 taskC2 =
      .ok { version := DLA_DESCRIPTOR_VERSION, engine_id := DLA_ENGINE_ID,
            sequence := 1, num_preactions := MAX_NUM_ACTION_LIST,
            num_postactions := MAX_NUM_ACTION_LIST,
            preRes := .error (-EINVAL),
            postRes := .ok ([.op .postTerminate], []),
            mapRes := ⟨[], 0, 0, none, []⟩ } :=
  ⟨rfl, rfl⟩

/-- Witness for C4 at the counterexample input (both branches). -/
theorem claim4_handle_array_witness :
    pinAll envC4 (mapHandleArray taskC4) ≠ none ∧
      ((taskC4.addresses.length = 0 →
        nvdla_map_task_memory envC4 taskC4 = .ok ⟨[], 0, 0, none, []⟩) ∧
      (taskC4.addresses.length ≠ 0 →
        ∃ m, nvdla_map_task_memory envC4 taskC4 = .ok m ∧
          m.num_handles = taskC4.addresses.length + 1 ∧
          m.memory_handles = taskC4.address_list.handle ::
            taskC4.addresses.map NvdlaMemHandle.handle ∧
          m.memory_handles.length = taskC4.addresses.length + 1 ∧
          m.pinCalls = 1)) :=
  ⟨by decide, claim4_handle_array envC4 taskC4 (by decide)⟩

/-- C7 counterexample: build then submit on an idle queue.  The encoded
pre-action list is one semaphore-wait then terminate and the post-action
list is one semaphore-signal then terminate, as claimed — but after submit
the descriptor's signal record still carries value 0 while the newly
assigned fence target is 1: submit records the target in the *task
structure's* `postfences[0]` syncpoint fields (lines 788–791), never in the
encoded signal action's value field.  This refutes the final part of the
claim. -/
theorem claim7_counterexample :
    nvdla_build_and_submit envC7 0 taskC7 ⟨0, 0, []⟩ 1 =
      .ok ({ version := DLA_DESCRIPTOR_VERSION, engine_id := DLA_ENGINE_ID,
             sequence := 1, num_preactions := MAX_NUM_ACTION_LIST,
             num_postactions := MAX_NUM_ACTION_LIST,
             preRes := .ok ([.sem .preSemGE 103 10, .op .preTerminate], []),
             postRes := .ok ([.sem .postSem 105 0, .op .postTerminate], []),
             mapRes := ⟨[], 0, 0, none, []⟩ },
           { taskC7 with postfences := [{ type := .syncpt, syncpoint_index := 5, syncpoint_value := 1 }] },
           { state := ⟨0, 1, [⟨1, 1⟩]⟩, result := .ok (),
             dispatched := true }) ∧
    (0 : Nat) ≠ 1 :=
  ⟨rfl, by decide⟩

/-- C7 (amended): for a task with one counter-wait pre-fence and one
counter-signal post-fence, the encoded pre-action list is exactly one
semaphore-wait record followed by one terminate record, and the encoded
post-action list is exactly one semaphore-signal record (on the queue's own
syncpoint address, value 0) followed by one terminate record.  The signal
record's value field is 0 after build *and stays 0 after submit*: submit
records the newly assigned fence target in the task structure's 0th
post-fence syncpoint fields instead of patching the descriptor. -/
theorem claim7_encoded_lists (env : Env) (t : NvdlaTask)
    (pf sf : NvdlaFence) (s : QueueState) (tid : Nat)
    (hpre : t.prefences = [pf]) (hpf : pf.type = .syncpt)
    (hpost : t.postfences = [sf]) (hsf : sf.type = .syncpt)
    (hin : t.in_task_status = []) (hout : t.out_task_status = []) :
    nvdla_fill_preactions env t =
      .ok ([.sem .preSemGE (env.syncptAddr pf.syncpoint_index)
        pf.syncpoint_value, .op .preTerminate], []) ∧
    nvdla_fill_postactions env t =
      .ok ([.sem .postSem (env.syncptAddr env.queueSyncptId) 0,
        .op .postTerminate], []) ∧
    (nvdla_queue_submit none none s tid).state.maxIssued =
      s.maxIssued + 1 ∧
    (submit_record_fence t env.queueSyncptId
        (nvdla_queue_submit none none s tid).state.maxIssued).postfences =
      [{ sf with syncpoint_index := env.queueSyncptId, syncpoint_value := s.maxIssued + 1 }] := by
  refine ⟨?_, ?_, rfl, ?_⟩
  · simp [nvdla_fill_preactions, fillPreFences, preFenceActions, hpre, hpf,
      hin, fillStatusActions]
  · simp [nvdla_fill_postactions, fillPostFences, postFenceActions, hpost,
      hsf, hout, fillStatusActions]
  · simp [submit_record_fence, hpost, nvdla_queue_submit]

/-- Witness for C7 at the concrete scenario input. -/
theorem claim7_encoded_lists_witness :
    taskC7.prefences = [waitFenceC7] ∧
      (nvdla_fill_preactions envC7 taskC7 =
        .ok ([.sem .preSemGE (envC7.syncptAddr 3) 10, .op .preTerminate],
          []) ∧
      nvdla_fill_postactions envC7 taskC7 =
        .ok ([.sem .postSem (envC7.syncptAddr envC7.queueSyncptId) 0,
          .op .postTerminate], []) ∧
      (nvdla_queue_submit none none ⟨0, 0, []⟩ 1).state.maxIssued = 0 + 1 ∧
      (submit_record_fence taskC7 envC7.queueSyncptId
          (nvdla_queue_submit none none ⟨0, 0, []⟩ 1).state.maxIssued).postfences =
        [{ type := .syncpt, syncpoint_index := envC7.queueSyncptId, syncpoint_value := 0 + 1 }]) := by
  refine ⟨rfl, ?_⟩
  exact claim7_encoded_lists envC7 taskC7 _ _ ⟨0, 0, []⟩ 1 rfl rfl rfl rfl
    rfl rfl

/-- C9 counterexample: when pinning the *first* status entry's handle fails,
the source's `break` sits directly inside the status `for` loop, so the loop
stops: no status action is emitted at all — the second (pinnable) entry is
skipped too, and the list is terminated with only the terminate opcode.
Under the claim's skip-and-continue reading the list would contain the
second entry's status action.  The build still returns success. -/
theorem claim9_counterexample :
    fillStatusActions envC9 .preTaskStatus [statusA, statusB] = ([], []) ∧
    fillStatusActionsSkipContinue envC9 .preTaskStatus [statusA, statusB] =
      ([.taskStatus .preTaskStatus 40 2], [4]) ∧
    (([], []) : List Action × List Nat) ≠
      ([.taskStatus .preTaskStatus 40 2], [4]) ∧
    nvdla_fill_preactions envC9 taskC9 = .ok ([.op .preTerminate], []) :=
  ⟨rfl, rfl, by decide, rfl⟩

/-- Every pre-fence list whose entries all have recognized kinds fills
without error. -/
theorem fillPreFences_ok (env : Env) :
    ∀ l : List NvdlaFence,
      (∀ g ∈ l, g.type = .syncFd ∨ g.type = .syncpt ∨ g.type = .semaphore) →
      ∃ r, fillPreFences env l = .ok r
  | [], _ => ⟨([], []), rfl⟩
  | f :: rest, h => by
    obtain ⟨r, hr⟩ := fillPreFences_ok env rest
      (fun g hg => h g (List.mem_cons_of_mem f hg))
    have hf := h f (List.mem_cons_self f rest)
    have hact : ∃ a, preFenceActions env f = .ok a := by
      rcases hf with h1 | h1 | h1
      · simp only [preFenceActions, h1]
        cases env.fdget f.sync_fd <;> simp
      · simp [preFenceActions, h1]
      · simp only [preFenceActions, h1]
        cases env.pin f.sem_handle <;> simp
    obtain ⟨a, ha⟩ := hact
    exact ⟨(a.1 ++ r.1, a.2 ++ r.2), by simp [fillPreFences, ha, hr]⟩

/-- C9 (amended): a pin failure never fails the build, but the two loops
react differently.  For a semaphore *fence* the failed pin `break`s out of
the `switch` only: that entry's action is skipped and the fence loop
continues with the remaining fences.  For a *status entry* the failed pin
`break`s out of the status `for` loop itself: the failed entry and every
remaining status entry are skipped.  In both cases the list is terminated
normally and the fill returns success. -/
theorem claim9_pin_failure (env : Env) (f : NvdlaFence)
    (rest : List NvdlaFence) (e : NvdlaStatusEntry)
    (erest : List NvdlaStatusEntry) (o : Op) (t : NvdlaTask)
    (hf : f.type = .semaphore) (hfp : env.pin f.sem_handle = none)
    (hep : env.pin e.handle = none)
    (ht : ∀ g ∈ t.prefences,
      g.type = .syncFd ∨ g.type = .syncpt ∨ g.type = .semaphore) :
    fillPreFences env (f :: rest) = fillPreFences env rest ∧
    fillStatusActions env o (e :: erest) = ([], []) ∧
    ∃ a p, nvdla_fill_preactions env t = .ok (a, p) ∧
      a.getLast? = some (.op .preTerminate) := by
  refine ⟨?_, ?_, ?_⟩
  · cases hrest : fillPreFences env rest with
    | error er => simp [fillPreFences, preFenceActions, hf, hfp, hrest]
    | ok r => simp [fillPreFences, preFenceActions, hf, hfp, hrest]
  · simp [fillStatusActions, hep]
  · obtain ⟨r, hr⟩ := fillPreFences_ok env t.prefences ht
    refine ⟨r.1 ++ (fillStatusActions env .preTaskStatus t.in_task_status).1
      ++ [.op .preTerminate],
      r.2 ++ (fillStatusActions env .preTaskStatus t.in_task_status).2,
      ?_, ?_⟩
    · simp [nvdla_fill_preactions, hr]
    · simp

/-- Witness for C9 at the counterexample inputs. -/
theorem claim9_pin_failure_witness :
    ({ type := .semaphore, sem_handle := 3 } : NvdlaFence).type =
        .semaphore ∧
      envC9.pin 3 = none ∧
      (fillPreFences envC9
          ([{ type := .semaphore, sem_handle := 3 }] : List NvdlaFence) =
        fillPreFences envC9 [] ∧
      fillStatusActions envC9 .preTaskStatus [statusA, statusB] = ([], []) ∧
      ∃ a p, nvdla_fill_preactions envC9 taskC9 = .ok (a, p) ∧
        a.getLast? = some (.op .preTerminate)) := by
  refine ⟨rfl, by decide, ?_⟩
  exact claim9_pin_failure envC9 { type := .semaphore, sem_handle := 3 } []
    statusA [statusB] .preTaskStatus taskC9 rfl (by decide) (by decide)
    (by decide)

/-- A sync-fd whose pairs are all valid expands to one semaphore-wait per
pair. -/
theorem syncFdActions_bytes (env : Env) :
    ∀ pts : List (Nat × Nat),
      (∀ p ∈ pts, p.1 ≠ 0 ∧ env.validHwPt p.1 = true) →
      actionListBytes (syncFdActions env pts) =
        pts.length * (opcodeBytes + semActionBytes)
  | [], _ => rfl
  | p :: rest, h => by
    obtain ⟨h1, h2⟩ := h p (List.mem_cons_self p rest)
    have ih := syncFdActions_bytes env rest
      (fun q hq => h q (List.mem_cons_of_mem p hq))
    have hcond : ¬ (p.1 = 0 ∨ env.validHwPt p.1 = false) := by
      simp [h1, h2]
    simp only [syncFdActions, if_neg hcond]
    simp only [actionListBytes, List.map_cons, List.sum_cons] at ih ⊢
    rw [ih, List.length_cons]
    simp only [Action.bytes]
    ring

/-- C8: the statically reserved worst-case preaction size can be exceeded.
For *any* configured maxima (with room for at least one pre-fence), a task
with a single sync-fd pre-fence — well within the configured counts — whose
sync file carries `maxPre + maxInStatus + 1` valid pairs encodes a preaction
list whose recorded byte length strictly exceeds
`nvdla_get_max_preaction_size`: the sync-fd case emits one wait action per
embedded pair while the static bound budgets one action per *fence*, so the
encoder writes past the reserved pool-slot region. -/
theorem claim8_size_overflow (maxPre maxInStatus : Nat) (hP : 1 ≤ maxPre) :
    overflowTask.prefences.length ≤ maxPre ∧
    overflowTask.postfences.length = 0 ∧
    overflowTask.in_task_status.length ≤ maxInStatus ∧
    ∃ a p, nvdla_fill_preactions (overflowEnv (maxPre + maxInStatus + 1))
        overflowTask = .ok (a, p) ∧
      nvdla_get_max_preaction_size maxPre maxInStatus <
        actionListBytes a := by
  refine ⟨by simpa [overflowTask] using hP, rfl, by simp [overflowTask], ?_⟩
  have hpts : ∀ q ∈ (List.range (maxPre + maxInStatus + 1)).map
      (fun i => (i + 1, 0)),
      q.1 ≠ 0 ∧ (overflowEnv (maxPre + maxInStatus + 1)).validHwPt q.1 =
        true := by
    intro q hq
    simp only [List.mem_map] at hq
    obtain ⟨i, _, rfl⟩ := hq
    exact ⟨Nat.succ_ne_zero i, rfl⟩
  have hbytes := syncFdActions_bytes (overflowEnv (maxPre + maxInStatus + 1))
    ((List.range (maxPre + maxInStatus + 1)).map fun i => (i + 1, 0)) hpts
  have hfill : nvdla_fill_preactions (overflowEnv (maxPre + maxInStatus + 1))
      overflowTask =
      .ok (syncFdActions (overflowEnv (maxPre + maxInStatus + 1))
        ((List.range (maxPre + maxInStatus + 1)).map fun i => (i + 1, 0)) ++
        [Action.op Op.preTerminate], []) := by
    simp [nvdla_fill_preactions, fillPreFences, preFenceActions,
      overflowTask, overflowEnv, fillStatusActions]
  refine ⟨_, _, hfill, ?_⟩
  simp only [actionListBytes] at hbytes ⊢
  simp only [List.map_append, List.sum_append, hbytes, List.length_map,
    List.length_range]
  simp only [nvdla_get_max_preaction_size, opcodeBytes, semActionBytes,
    statusActionBytes, List.map_cons, List.map_nil, Action.bytes,
    List.sum_cons, List.sum_nil]
  omega

/-- Witness for C8 at maxima 1 pre-fence / 0 status entries: a sync file
with 2 pairs already overflows the reserved size. -/
theorem claim8_size_overflow_witness :
    (1 : Nat) ≤ 1 ∧
      (overflowTask.prefences.length ≤ 1 ∧
        overflowTask.postfences.length = 0 ∧
        overflowTask.in_task_status.length ≤ 0 ∧
        ∃ a p, nvdla_fill_preactions (overflowEnv (1 + 0 + 1))
            overflowTask = .ok (a, p) ∧
          nvdla_get_max_preaction_size 1 0 < actionListBytes a) :=
  ⟨Nat.le_refl 1, claim8_size_overflow 1 0 (Nat.le_refl 1)⟩

/-- Under `preFenceOK`, the pre-fence loop succeeds and pins exactly the
nonzero semaphore handles — the same set `nvdla_task_free_locked` later
unpins. -/
theorem fillPreFences_pins (env : Env) :
    ∀ l : List NvdlaFence, (∀ f ∈ l, preFenceOK env f) →
      ∃ a, fillPreFences env l = .ok (a,
        (l.filter fun f =>
          decide (f.type = .semaphore) && decide (f.sem_handle ≠ 0)).map
          NvdlaFence.sem_handle)
  | [], _ => ⟨[], rfl⟩
  | f :: rest, h => by
    obtain ⟨a, ha⟩ := fillPreFences_pins env rest
      (fun g hg => h g (List.mem_cons_of_mem f hg))
    have hf := h f (List.mem_cons_self f rest)
    rcases hf with h1 | h1 | ⟨h1, h2, h3⟩
    · have hex : ∃ acts, preFenceActions env f = .ok (acts, []) := by
        simp only [preFenceActions, h1]
        cases env.fdget f.sync_fd <;> simp
      obtain ⟨acts, hacts⟩ := hex
      refine ⟨acts ++ a, ?_⟩
      simp [fillPreFences, hacts, ha, List.filter_cons, h1]
    · refine ⟨[.sem .preSemGE (env.syncptAddr f.syncpoint_index)
        f.syncpoint_value] ++ a, ?_⟩
      simp [fillPreFences, preFenceActions, h1, ha, List.filter_cons]
    · obtain ⟨d, hd⟩ := Option.isSome_iff_exists.mp h3
      refine ⟨[.sem .preSemGE (d + f.sem_offset) f.sem_val] ++ a, ?_⟩
      simp [fillPreFences, preFenceActions, h1, hd, ha, List.filter_cons,
        h2]

/-- Under `postFenceOK`, the post-fence loop succeeds and pins exactly the
nonzero (timestamp-)semaphore handles. -/
theorem fillPostFences_pins (env : Env) :
    ∀ l : List NvdlaFence, (∀ f ∈ l, postFenceOK env f) →
      ∃ a, fillPostFences env l = .ok (a,
        (l.filter fun f =>
          (decide (f.type = .semaphore) || decide (f.type = .tsSemaphore)) &&
            decide (f.sem_handle ≠ 0)).map NvdlaFence.sem_handle)
  | [], _ => ⟨[], rfl⟩
  | f :: rest, h => by
    obtain ⟨a, ha⟩ := fillPostFences_pins env rest
      (fun g hg => h g (List.mem_cons_of_mem f hg))
    have hf := h f (List.mem_cons_self f rest)
    rcases hf with h1 | ⟨h1, h2, h3⟩
    · refine ⟨[.sem .postSem (env.syncptAddr env.queueSyncptId) 0] ++ a, ?_⟩
      simp [fillPostFences, postFenceActions, h1, ha, List.filter_cons]
    · obtain ⟨d, hd⟩ := Option.isSome_iff_exists.mp h3
      rcases h1 with h1 | h1
      · refine ⟨[.sem .postSem (d + f.sem_offset) f.sem_val] ++ a, ?_⟩
        simp [fillPostFences, postFenceActions, h1, hd, ha,
          List.filter_cons, h2]
      · refine ⟨[.sem .postTsSem (d + f.sem_offset) f.sem_val] ++ a, ?_⟩
        simp [fillPostFences, postFenceActions, h1, hd, ha,
          List.filter_cons, h2]

/-- When every status handle is nonzero and pinnable, the status loop pins
exactly the (nonzero) status handles. -/
theorem fillStatusActions_pins (env : Env) (o : Op) :
    ∀ l : List NvdlaStatusEntry,
      (∀ e ∈ l, e.handle ≠ 0 ∧ (env.pin e.handle).isSome) →
      (fillStatusActions env o l).2 =
        (l.filter fun e => decide (e.handle ≠ 0)).map
          NvdlaStatusEntry.handle
  | [], _ => rfl
  | e :: rest, h => by
    obtain ⟨h1, h2⟩ := h e (List.mem_cons_self e rest)
    obtain ⟨d, hd⟩ := Option.isSome_iff_exists.mp h2
    have ih := fillStatusActions_pins env o rest
      (fun g hg => h g (List.mem_cons_of_mem e hg))
    simp [fillStatusActions, hd, ih, List.filter_cons, h1]

/-- A task whose batched pin is available maps successfully, advertising
exactly the handle array. -/
theorem map_ok_of_pinAll (env : Env) (t : NvdlaTask)
    (h5 : pinAll env (mapHandleArray t) ≠ none) :
    ∃ m, nvdla_map_task_memory env t = .ok m ∧
      m.memory_handles = mapHandleArray t := by
  by_cases h0 : t.addresses.length = 0
  · refine ⟨⟨[], 0, 0, none, []⟩, ?_, ?_⟩
    · simp [nvdla_map_task_memory, h0]
    · simp [mapHandleArray, h0]
  · have hml : mapHandleArray t =
        t.address_list.handle :: t.addresses.map NvdlaMemHandle.handle := by
      simp [mapHandleArray, h0]
    cases hp : pinAll env (mapHandleArray t) with
    | none => exact absurd hp h5
    | some dmas =>
      cases dmas with
      | nil =>
        have hlen := pinAll_length env _ _ hp
        rw [hml] at hlen
        simp at hlen
      | cons d0 drest =>
        refine ⟨⟨mapHandleArray t, t.addresses.length + 1, 1,
          some (d0 + t.address_list.offset),
          (drest.zip t.addresses).map fun p => p.1 + p.2.offset⟩, ?_, rfl⟩
        simp only [nvdla_map_task_memory, hp]
        simp [h0]

/-- C3 counterexample: building `taskC3` pins handle 7, yet when the
reference count reaches zero via `nvdla_task_put` the task is freed
(descriptor slot released, task object freed, queue reference dropped)
*without a single unpin call*: `nvdla_task_put` / `task_free` never unpin —
unpinning happens only in `nvdla_task_free_locked`, the completion-sweep
teardown.  So "every pinned handle is unpinned exactly once" fails on the
release path as claimed: handle 7 is unpinned zero times. -/
theorem claim3_counterexample :
    nvdla_fill_task_desc envC3 0 taskC3 = .ok dC3 ∧
    dC3.pins = [7] ∧
    nvdla_task_put dC3.mapRes.memory_handles
        ⟨1, 1, 1, [], false, false, false, true⟩ =
      ⟨0, 0, 1, [], true, false, true, true⟩ ∧
    ([] : List Nat).count 7 ≠ 1 :=
  ⟨rfl, rfl, rfl, by decide⟩

/-- `nvdla_task_free_locked`'s unpin list, written with the named pin
sets. -/
theorem freeLockedUnpins_eq (t : NvdlaTask) (mh : List Nat) :
    freeLockedUnpins t mh =
      mh ++ preSemPins t ++ inStatusPins t ++ postSemPins t ++
        outStatusPins t := rfl

/-- The pins of a built descriptor, written with the named pin sets. -/
theorem builtDesc_pins (env : Env) (t : NvdlaTask) (seq : Nat)
    (pa qa : List Action) (m : MapResult) :
    (builtDesc env t seq pa qa m).pins =
      (preSemPins t ++ inStatusPins t) ++ (postSemPins t ++ outStatusPins t)
        ++ m.memory_handles := rfl

/-- C3 (amended): unpinning is performed by `nvdla_task_free_locked` (the
completion/teardown path), not by `nvdla_task_put`.  For every task whose
fences and status entries have recognized kinds, nonzero handles and
successful pins, the build succeeds, and tearing the task down through
`nvdla_task_free_locked` with the final reference unpins exactly the pinned
handles — the unpin calls are a permutation of the pin calls, so each handle
is unpinned exactly as many times as it was pinned (no double-unpin, no
leak) — removes the task from the in-flight list, puts the syncpoint and
queue references, frees the descriptor pool slot, frees the handle array
when one was allocated, and frees the task object. -/
theorem claim3_teardown (env : Env) (t : NvdlaTask) (seq : Nat)
    (h1 : ∀ f ∈ t.prefences, preFenceOK env f)
    (h2 : ∀ f ∈ t.postfences, postFenceOK env f)
    (h3 : ∀ e ∈ t.in_task_status, e.handle ≠ 0 ∧ (env.pin e.handle).isSome)
    (h4 : ∀ e ∈ t.out_task_status, e.handle ≠ 0 ∧ (env.pin e.handle).isSome)
    (h5 : pinAll env (mapHandleArray t) ≠ none)
    (h6 : env.allocErr = none) :
    ∃ d, nvdla_fill_task_desc env seq t = .ok d ∧
      d.mapRes.memory_handles = mapHandleArray t ∧
      (freeLockedUnpins t d.mapRes.memory_handles).Perm d.pins ∧
      (∀ n, (freeLockedUnpins t d.mapRes.memory_handles).count n =
        d.pins.count n) ∧
      nvdla_task_free_locked t d.mapRes.memory_handles
          ⟨1, 1, 1, [], false, false, false, true⟩ =
        ⟨0, 0, 0, freeLockedUnpins t d.mapRes.memory_handles, true,
          decide (d.mapRes.memory_handles ≠ []), true, false⟩ := by
  obtain ⟨pa, hpa⟩ := fillPreFences_pins env t.prefences h1
  obtain ⟨qa, hqa⟩ := fillPostFences_pins env t.postfences h2
  have hin := fillStatusActions_pins env .preTaskStatus t.in_task_status h3
  have hout := fillStatusActions_pins env .postTaskStatus t.out_task_status
    h4
  obtain ⟨m, hm, hmh⟩ := map_ok_of_pinAll env t h5
  have hpre : nvdla_fill_preactions env t =
      .ok (pa ++ (fillStatusActions env .preTaskStatus t.in_task_status).1
          ++ [.op .preTerminate], preSemPins t ++ inStatusPins t) := by
    simp only [nvdla_fill_preactions, hpa, hin, preSemPins, inStatusPins]
  have hpost : nvdla_fill_postactions env t =
      .ok (qa ++ (fillStatusActions env .postTaskStatus t.out_task_status).1
          ++ [.op .postTerminate], postSemPins t ++ outStatusPins t) := by
    simp only [nvdla_fill_postactions, hqa, hout, postSemPins,
      outStatusPins]
  refine ⟨builtDesc env t seq pa qa m, ?_, hmh, ?_, ?_, ?_⟩
  case _ =>
    simp only [nvdla_fill_task_desc, h6, hm, hpre, hpost, builtDesc]
  case _ =>
    show (freeLockedUnpins t m.memory_handles).Perm
      (builtDesc env t seq pa qa m).pins
    rw [freeLockedUnpins_eq, builtDesc_pins]
    have hcomm := @List.perm_append_comm Nat m.memory_handles
      (preSemPins t ++ (inStatusPins t ++ (postSemPins t ++
        outStatusPins t)))
    simpa [List.append_assoc] using hcomm
  case _ =>
    intro n
    show (freeLockedUnpins t m.memory_handles).count n =
      ((builtDesc env t seq pa qa m).pins).count n
    rw [freeLockedUnpins_eq, builtDesc_pins]
    have hcomm := @List.perm_append_comm Nat m.memory_handles
      (preSemPins t ++ (inStatusPins t ++ (postSemPins t ++
        outStatusPins t)))
    have hcount := hcomm.count_eq n
    simpa [List.append_assoc] using hcount
  case _ => rfl

/-- Witness for C3 at the counterexample task (all pins succeed). -/
theorem claim3_teardown_witness :
    (∀ f ∈ taskC3.prefences, preFenceOK envC3 f) ∧
      (∀ f ∈ taskC3.postfences, postFenceOK envC3 f) ∧
      (∀ e ∈ taskC3.in_task_status,
        e.handle ≠ 0 ∧ (envC3.pin e.handle).isSome) ∧
      (∀ e ∈ taskC3.out_task_status,
        e.handle ≠ 0 ∧ (envC3.pin e.handle).isSome) ∧
      pinAll envC3 (mapHandleArray taskC3) ≠ none ∧
      envC3.allocErr = none ∧
      (∃ d, nvdla_fill_task_desc envC3 5 taskC3 = .ok d ∧
        d.mapRes.memory_handles = mapHandleArray taskC3 ∧
        (freeLockedUnpins taskC3 d.mapRes.memory_handles).Perm d.pins ∧
        (∀ n, (freeLockedUnpins taskC3 d.mapRes.memory_handles).count n =
          d.pins.count n) ∧
        nvdla_task_free_locked taskC3 d.mapRes.memory_handles
            ⟨1, 1, 1, [], false, false, false, true⟩ =
          ⟨0, 0, 0, freeLockedUnpins taskC3 d.mapRes.memory_handles, true,
            decide (d.mapRes.memory_handles ≠ []), true, false⟩) :=
  ⟨by decide, by decide, by decide, by decide, by decide, rfl,
    claim3_teardown envC3 taskC3 5 (by decide) (by decide) (by decide)
      (by decide) (by decide) rfl⟩

end NvdlaQueue
